import Mathlib

/-!
Verification of the AI ShopHub catalog engine: product query / filter /
sort / pagination, the hybrid semantic-search merge, and the cart and
wishlist storage operations.  The definitions below are a shallow
embedding of the TypeScript sources:

* `client/src/hooks/use-products.ts` (the hybrid client query),
* the Express route file registering `GET /api/products`,
  `GET /api/products/by-ids` and the cart/wishlist routes,
* `server/storage.ts` (`DatabaseStorage`),
* `shared/schema.ts` (table shapes).

The relational store is PostgreSQL (the schema is built with
`drizzle-orm/pg-core`), so SQL constructs emitted by `storage.ts`
(`ILIKE`, `ORDER BY`, `CAST ... AS NUMERIC`) are interpreted with
PostgreSQL semantics; in particular `NULL` sorts as greater than every
non-null value (`NULLS FIRST` under `DESC`, `NULLS LAST` under `ASC`).
SQL `ORDER BY` guarantees only the relative order of rows with distinct
keys; we model each store sort as the canonical stable sort, and every
ordering property proved below relies only on the pairwise ordering
guarantee that all compliant orderings share.  JavaScript
`Array.prototype.sort` is guaranteed stable, so its result with a
consistent comparator is exactly the canonical stable sort by the
comparator's key.
-/

namespace Shop

/-- Product row (`products` table in `shared/schema.ts`).  Columns not read
by any operation verified here (`discountPercentage`, `ratingCount`,
`aboutProduct`, `imgLink`, `productLink`) are omitted.  `rating` is the
nullable `decimal(3,2)` column, represented by its exact numeric value. -/
structure Product where
  id : String
  productName : String
  category : String
  discountedPrice : String
  actualPrice : String
  rating : Option ℚ
  deriving DecidableEq

/-- Row of the `cart_items` table (per-user cart line).  The row id and
timestamp are omitted; `quantity` is the integer column. -/
structure CartItem where
  userId : String
  productId : String
  quantity : ℤ
  deriving DecidableEq

/-- Row of the `wishlist_items` table.  The row id and timestamp are
omitted. -/
structure WishlistItem where
  userId : String
  productId : String
  deriving DecidableEq

/-! ### String helpers: case-insensitive substring (SQL `ILIKE '%x%'`) -/

/-- `charsBeginWith needle hay` is true when `needle` is an initial
segment of `hay`. -/
def charsBeginWith : List Char → List Char → Bool
  | [], _ => true
  | _ :: _, [] => false
  | a :: as, b :: bs => a == b && charsBeginWith as bs

/-- `hasSubstr needle hay` is true when `needle` occurs contiguously
inside `hay`. -/
def hasSubstr (needle : List Char) : List Char → Bool
  | [] => needle.isEmpty
  | b :: bs => charsBeginWith needle (b :: bs) || hasSubstr needle bs

/-- JavaScript `String.prototype.trim`: drop whitespace from both ends. -/
def jsTrim (s : String) : String :=
  ⟨((s.data.dropWhile Char.isWhitespace).reverse.dropWhile Char.isWhitespace).reverse⟩

/-- Lower-cased character sequence of a string (case folding for the
case-insensitive match). -/
def lowerChars (cs : List Char) : List Char :=
  cs.map Char.toLower

/-- PostgreSQL `hay ILIKE '%needle%'` for a wildcard-free needle:
case-insensitive containment. -/
def ilikeContains (hay needle : String) : Bool :=
  hasSubstr (lowerChars needle.data) (lowerChars hay.data)

/-! ### Price and rating normalizers -/

/-- The `replace(/[^0-9]/g, '')` step of the client price normalizer:
keep only the decimal digits (the decimal point is removed as well). -/
def stripNonDigits (s : String) : String :=
  ⟨s.data.filter Char.isDigit⟩

/-- Value of a string of decimal digit characters (the effect of
`parseInt` on an all-digit string). -/
def digitsToNat (ds : List Char) : ℕ :=
  ds.foldl (fun acc c => 10 * acc + (c.toNat - 48)) 0

/-- The client/route price normalizer
`parseInt(p.discountedPrice?.replace(/[^0-9]/g, '') || '0')`
(use-products.ts and the by-ids route): strip every non-digit character,
fall back to `"0"` when nothing is left (also when the field is null),
and parse the remaining digit string as an integer. -/
def normalizePrice : Option String → ℕ
  | none => 0
  | some s =>
    let digits := stripNonDigits s
    digitsToNat (if digits = "" then "0" else digits).data

/-- Normalized price of a product, as used by the in-memory price filter
and the price sort comparators. -/
def priceKey (p : Product) : ℕ :=
  normalizePrice (some p.discountedPrice)

/-- The in-memory rating normalizer `parseFloat(p.rating || '0')`:
a missing rating is read as `0`. -/
def ratingKey (p : Product) : ℚ :=
  p.rating.getD 0

/-- The two `REPLACE` steps of the store price cast:
`REPLACE(REPLACE(price, '₹', ''), ',', '')`. -/
def stripCurrencyAndCommas (s : String) : String :=
  ⟨s.data.filter (fun c => !(c == '₹' || c == ','))⟩

/-- Parse a plain decimal numeral (`digits` or `digits.digits`), the
value forms accepted by `CAST (... AS NUMERIC)` that occur here. -/
def parseDecimal (s : String) : Option ℚ :=
  match s.data.splitOn '.' with
  | [i] =>
    if !i.isEmpty && i.all Char.isDigit then some (digitsToNat i : ℚ) else none
  | [i, f] =>
    if (!i.isEmpty || !f.isEmpty) && i.all Char.isDigit && f.all Char.isDigit then
      some ((digitsToNat i : ℚ) + (digitsToNat f : ℚ) / (10 : ℚ) ^ f.length)
    else none
  | _ => none

/-- The store-side numeric price
`CAST(REPLACE(REPLACE(discounted_price, '₹', ''), ',', '') AS NUMERIC)`.
A row whose stripped price text is not a valid numeral would make the
whole query raise a store error (reported as a service failure, spec §7);
such catalogs are outside every claim considered here, and the cast is
totalized with `0` for them. -/
def storePriceKey (p : Product) : ℚ :=
  (parseDecimal (stripCurrencyAndCommas p.discountedPrice)).getD 0

/-- The `rating` column as ordered by PostgreSQL: `NULL` sorts as greater
than every non-null value. -/
def pgRatingKey (p : Product) : WithTop ℚ :=
  match p.rating with
  | some r => (r : WithTop ℚ)
  | none => ⊤

/-! ### The canonical stable sort

JavaScript `Array.prototype.sort` is stable, and every comparator used in
the sources is of the form `f a - f b` (ascending by key `f`) or
`f b - f a` (descending, i.e. ascending by the dual key).  The result of
a stable sort with such a comparator is exactly the insertion sort by the
relation `comparator a b ≤ 0`. -/

/-- Stable sort of `l`, ascending by the key `κ`; ties keep their
original relative order. -/
def stableSortByKey {α : Type*} {K : Type*} [LinearOrder K] (κ : α → K)
    (l : List α) : List α :=
  List.insertionSort (fun a b => κ a ≤ κ b) l

/-! ### JS `Map` helpers (last entry wins on duplicate keys) -/

/-- `new Map(rows.map(p => [p.id, p])).get(id)`: the last row carrying
`id` wins. -/
def jsMapGet (rows : List Product) (id : String) : Option Product :=
  rows.foldl (fun acc p => if p.id == id then some p else acc) none

/-- `new Map(ids.map((id, index) => [id, index])).get(id)`: the index of
the last occurrence of `id`. -/
def jsMapIdx (ids : List String) (id : String) : Option ℕ :=
  ids.enum.foldl (fun acc ix => if ix.2 == id then some ix.1 else acc) none

/-- `Number.MAX_SAFE_INTEGER`. -/
def maxSafeInteger : ℕ := 9007199254740991

/-- Sort key used by the by-ids route when no `sortBy` is given: position
of the product's id in the requested id list, `MAX_SAFE_INTEGER` when
absent. -/
def idOrderKey (ids : List String) (p : Product) : ℕ :=
  (jsMapIdx ids p.id).getD maxSafeInteger

/-! ### The sort switches -/

/-- The sort switch shared by the hybrid client (use-products.ts, the
`filteredProducts.sort` comparator) and the by-ids route: `price_asc`
sorts by `parseInt(a.discountedPrice...) - parseInt(b.discountedPrice...)`,
`price_desc` by the reversed difference, `rating` by
`parseFloat(b.rating || '0') - parseFloat(a.rating || '0')`; every other
key hits the comparator's `default: return 0`, under which the stable
sort keeps the incoming order (modelled as sorting by a constant key). -/
def clientSort (sortBy : String) (l : List Product) : List Product :=
  match sortBy with
  | "price_asc" => stableSortByKey priceKey l
  | "price_desc" => stableSortByKey (fun p => OrderDual.toDual (priceKey p)) l
  | "rating" => stableSortByKey (fun p => OrderDual.toDual (ratingKey p)) l
  | _ => stableSortByKey (fun _ => (0 : ℕ)) l

/-- The `orderBy` switch of `DatabaseStorage.getProducts`
(server/storage.ts): `price-low`/`price-high` order by the numeric cast
of the price, `rating`/`rating-high` by `rating DESC` (PostgreSQL: nulls
first), `rating-low` by `rating ASC` (nulls last), and everything else
by `id DESC`. -/
def storeSort (sortBy? : Option String) (l : List Product) : List Product :=
  match sortBy? with
  | some "price-low" => stableSortByKey storePriceKey l
  | some "price-high" => stableSortByKey (fun p => OrderDual.toDual (storePriceKey p)) l
  | some "rating" => stableSortByKey (fun p => OrderDual.toDual (pgRatingKey p)) l
  | some "rating-high" => stableSortByKey (fun p => OrderDual.toDual (pgRatingKey p)) l
  | some "rating-low" => stableSortByKey pgRatingKey l
  | _ => stableSortByKey (fun p => OrderDual.toDual p.id) l

/-! ### Filters

Query-string parameters arrive as text and are read with
`parseInt`/`parseFloat` before use; the embeddings below take the parsed
numeric values (`Option ℕ` for the price bounds, `Option ℚ` for the
rating floor). -/

/-- The in-memory filter block of the hybrid client (use-products.ts,
`filteredProducts = ...`): exact category equality (`p.category ===
category`), price window on the normalized price (missing minimum reads
as `0`, missing maximum as `Infinity`), rating floor on
`parseFloat(p.rating || '0')`. -/
def clientFilter (category? : Option String) (priceMin? priceMax? : Option ℕ)
    (rating? : Option ℚ) (l : List Product) : List Product :=
  let l1 := match category? with
    | some c => l.filter (fun p => p.category == c)
    | none => l
  let l2 := match priceMin?, priceMax? with
    | none, none => l1
    | _, _ =>
      l1.filter (fun p =>
        decide (priceMin?.getD 0 ≤ priceKey p) &&
          (match priceMax? with
           | some mx => decide (priceKey p ≤ mx)
           | none => true))
  let l3 := match rating? with
    | some r => l2.filter (fun p => decide (r ≤ ratingKey p))
    | none => l2
  l3

/-- The single boolean predicate equivalent to `clientFilter` (used to
state order-preservation results). -/
def clientPred (category? : Option String) (priceMin? priceMax? : Option ℕ)
    (rating? : Option ℚ) (p : Product) : Bool :=
  ((match rating? with
    | some r => decide (r ≤ ratingKey p)
    | none => true) &&
   (match priceMin?, priceMax? with
    | none, none => true
    | _, _ =>
      decide (priceMin?.getD 0 ≤ priceKey p) &&
        (match priceMax? with
         | some mx => decide (priceKey p ≤ mx)
         | none => true))) &&
  (match category? with
   | some c => p.category == c
   | none => true)

/-- The filter block of the by-ids route: identical to the client filter
except that a missing price maximum reads as `Number.MAX_SAFE_INTEGER`
rather than `Infinity`. -/
def byIdsFilter (category? : Option String) (priceMin? priceMax? : Option ℕ)
    (rating? : Option ℚ) (l : List Product) : List Product :=
  let l1 := match category? with
    | some c => l.filter (fun p => p.category == c)
    | none => l
  let l2 := match priceMin?, priceMax? with
    | none, none => l1
    | _, _ =>
      l1.filter (fun p =>
        decide (priceMin?.getD 0 ≤ priceKey p) &&
          decide (priceKey p ≤ priceMax?.getD maxSafeInteger))
  let l3 := match rating? with
    | some r => l2.filter (fun p => decide (r ≤ ratingKey p))
    | none => l2
  l3

/-- Modelled from the spec: `storage.getProductsByIds`, invoked by the
by-ids route, is not among the provided sources (only its call site is).
Spec §4.4: the engine "also exposes: fetch by identifier set (returns
all matching rows for an arbitrary set of identifiers ... no pagination
applied at this step)".  Rows are returned in store order. -/
def getProductsByIds (catalog : List Product) (ids : List String) : List Product :=
  catalog.filter (fun p => ids.contains p.id)

/-- The `GET /api/products/by-ids` route: fetch the rows for the
requested ids, filter, then either sort with the shared comparator
switch (when `sortBy` is given) or restore the order of the requested
id list. -/
def byIdsHandler (catalog : List Product) (ids : List String)
    (category? : Option String) (priceMin? priceMax? : Option ℕ)
    (rating? : Option ℚ) (sortBy? : Option String) : List Product :=
  if ids.isEmpty then []
  else
    let fetched := getProductsByIds catalog ids
    let filtered := byIdsFilter category? priceMin? priceMax? rating? fetched
    match sortBy? with
    | some s => clientSort s filtered
    | none => stableSortByKey (idOrderKey ids) filtered

/-! ### The direct (non-semantic) store path -/

/-- The `WHERE` conjunction built by `DatabaseStorage.getProducts`:
`ILIKE '%search%'` on the product name, `ILIKE '%category%'` on the
category, numeric-cast price window (inclusive), and `rating >= floor`
(SQL comparison: a `NULL` rating never matches). -/
def storeMatches (search? category? : Option String)
    (priceMin? priceMax? : Option ℕ) (rating? : Option ℚ)
    (catalog : List Product) : List Product :=
  catalog.filter (fun p =>
    (match search? with
     | some s => ilikeContains p.productName s
     | none => true) &&
    (match category? with
     | some c => ilikeContains p.category c
     | none => true) &&
    (match priceMin? with
     | some mn => decide ((mn : ℚ) ≤ storePriceKey p)
     | none => true) &&
    (match priceMax? with
     | some mx => decide (storePriceKey p ≤ (mx : ℚ))
     | none => true) &&
    (match rating? with
     | some r =>
       match p.rating with
       | some pr => decide (r ≤ pr)
       | none => false
     | none => true))

/-- `DatabaseStorage.getProducts`: filter, count, sort, then
`LIMIT limit OFFSET (page-1)*limit`.  Returns the page of rows and the
total match count. -/
def getProducts (catalog : List Product) (page limit : ℕ)
    (search? category? sortBy? : Option String)
    (priceMin? priceMax? : Option ℕ) (rating? : Option ℚ) :
    List Product × ℕ :=
  let rows := storeMatches search? category? priceMin? priceMax? rating? catalog
  let sorted := storeSort sortBy? rows
  ((sorted.drop ((page - 1) * limit)).take limit, rows.length)

/-- `Math.ceil(total / limit)` on naturals (`GET /api/products` and the
hybrid client compute the same expression).  Meaningful for
`limit > 0`, where it is exactly the ceiling. -/
def totalPages (total limit : ℕ) : ℕ :=
  (total + limit - 1) / limit

/-- Pagination envelope of a product-listing response. -/
structure Pagination where
  page : ℕ
  limit : ℕ
  total : ℕ
  totalPages : ℕ
  deriving DecidableEq

/-- A product-listing response. -/
structure ProductsResponse where
  products : List Product
  pagination : Pagination
  deriving DecidableEq

/-- The `GET /api/products` route: delegate to the store query and wrap
the page with `total` and `totalPages = Math.ceil(total / limit)`. -/
def apiProductsHandler (catalog : List Product) (page limit : ℕ)
    (search? category? sortBy? : Option String)
    (priceMin? priceMax? : Option ℕ) (rating? : Option ℚ) :
    ProductsResponse :=
  let r := getProducts catalog page limit search? category? sortBy? priceMin? priceMax? rating?
  ⟨r.1, ⟨page, limit, r.2, totalPages r.2 limit⟩⟩

/-! ### The hybrid client path (use-products.ts) -/

/-- The client's reordering step: map each semantic candidate id through
the `Map` built from the by-ids response and drop the ids with no
fetched row (`productIds.map(id => productMap.get(id)).filter(p => p !==
undefined)`). -/
def hybridOrdered (catalog : List Product) (ids : List String)
    (category? : Option String) (priceMin? priceMax? : Option ℕ)
    (rating? : Option ℚ) (sortBy? : Option String) : List Product :=
  ids.filterMap
    (fun i => jsMapGet (byIdsHandler catalog ids category? priceMin? priceMax? rating? sortBy?) i)

/-- The client's in-memory filter pass over the reordered list. -/
def hybridFiltered (catalog : List Product) (ids : List String)
    (category? : Option String) (priceMin? priceMax? : Option ℕ)
    (rating? : Option ℚ) (sortBy? : Option String) : List Product :=
  clientFilter category? priceMin? priceMax? rating?
    (hybridOrdered catalog ids category? priceMin? priceMax? rating? sortBy?)

/-- The client's conditional sort pass (`if (sortBy)
filteredProducts.sort(...)`). -/
def hybridRanked (catalog : List Product) (ids : List String)
    (category? : Option String) (priceMin? priceMax? : Option ℕ)
    (rating? : Option ℚ) (sortBy? : Option String) : List Product :=
  match sortBy? with
  | some s => clientSort s (hybridFiltered catalog ids category? priceMin? priceMax? rating? sortBy?)
  | none => hybridFiltered catalog ids category? priceMin? priceMax? rating? sortBy?

/-- Outcome of the semantic-search call: a thrown transport error or
non-ok response (`failure`), or an ordered candidate id list. -/
inductive AdapterResult where
  | failure : AdapterResult
  | success : List String → AdapterResult

/-- The `queryFn` of `useProducts`: with non-blank search text, call the
semantic adapter; on a thrown failure fall back to the direct
`/api/products` request (which applies the search text as a substring
filter); on zero candidates return an empty response; otherwise fetch by
ids, reorder, filter, sort and paginate in memory.  Without search text,
issue the direct request. -/
def useProductsQuery (adapter : AdapterResult) (catalog : List Product)
    (page limit : ℕ) (search? category? sortBy? : Option String)
    (priceMin? priceMax? : Option ℕ) (rating? : Option ℚ) :
    ProductsResponse :=
  let direct := apiProductsHandler catalog page limit search? category? sortBy? priceMin? priceMax? rating?
  match search? with
  | some s =>
    if jsTrim s = "" then direct
    else
      match adapter with
      | .failure => direct
      | .success ids =>
        if ids.isEmpty then ⟨[], ⟨page, limit, 0, 0⟩⟩
        else
          let filtered := hybridFiltered catalog ids category? priceMin? priceMax? rating? sortBy?
          let ranked := hybridRanked catalog ids category? priceMin? priceMax? rating? sortBy?
          ⟨(ranked.drop ((page - 1) * limit)).take limit,
           ⟨page, limit, filtered.length, totalPages filtered.length limit⟩⟩
  | none => direct

/-! ### Cart and wishlist storage operations -/

/-- The row-selection condition `eq(cartItems.userId, userId) &&
eq(cartItems.productId, productId)`. -/
def cartKeyMatches (userId productId : String) (r : CartItem) : Bool :=
  r.userId == userId && r.productId == productId

/-- The existence check at the top of `addToCart`/`updateCartItem`. -/
def findCartItem? (cart : List CartItem) (userId productId : String) :
    Option CartItem :=
  cart.find? (cartKeyMatches userId productId)

/-- `DatabaseStorage.addToCart`: when a row for `(userId, productId)`
exists, update its quantity to `existing.quantity + quantity` and return
the updated row; otherwise insert a fresh row.  Returns the new table
state and the returned row. -/
def addToCart (cart : List CartItem) (userId productId : String)
    (quantity : ℤ) : List CartItem × CartItem :=
  match findCartItem? cart userId productId with
  | some existingItem =>
    let updated : CartItem := { existingItem with quantity := existingItem.quantity + quantity }
    (cart.map (fun r => if cartKeyMatches userId productId r then { r with quantity := existingItem.quantity + quantity } else r),
     updated)
  | none =>
    let newItem : CartItem := ⟨userId, productId, quantity⟩
    (cart ++ [newItem], newItem)

/-- `DatabaseStorage.removeFromCart`. -/
def removeFromCart (cart : List CartItem) (userId productId : String) :
    List CartItem :=
  cart.filter (fun r => !(cartKeyMatches userId productId r))

/-- `DatabaseStorage.updateCartItem`: quantity at most `0` deletes the
row and returns `undefined`; otherwise the row's quantity is set and the
updated row returned (or `undefined` when no row matched). -/
def updateCartItem (cart : List CartItem) (userId productId : String)
    (quantity : ℤ) : List CartItem × Option CartItem :=
  if quantity ≤ 0 then (removeFromCart cart userId productId, none)
  else
    (cart.map (fun r => if cartKeyMatches userId productId r then { r with quantity := quantity } else r),
     match findCartItem? cart userId productId with
     | some existingItem => some { existingItem with quantity := quantity }
     | none => none)

/-- The existence check of `addToWishlist`/`isInWishlist`. -/
def findWishlistItem? (wl : List WishlistItem) (userId productId : String) :
    Option WishlistItem :=
  wl.find? (fun r => r.userId == userId && r.productId == productId)

/-- `DatabaseStorage.addToWishlist`: return the existing row untouched
when present, otherwise insert a fresh row. -/
def addToWishlist (wl : List WishlistItem) (userId productId : String) :
    List WishlistItem × WishlistItem :=
  match findWishlistItem? wl userId productId with
  | some existingItem => (wl, existingItem)
  | none =>
    let newItem : WishlistItem := ⟨userId, productId⟩
    (wl ++ [newItem], newItem)

/-- `DatabaseStorage.isInWishlist`. -/
def isInWishlist (wl : List WishlistItem) (userId productId : String) : Bool :=
  (findWishlistItem? wl userId productId).isSome

/-- Cart table invariant: at most one row per `(userId, productId)` and
every stored quantity at least `1`. -/
def CartInv (cart : List CartItem) : Prop :=
  cart.Pairwise (fun a b => ¬(a.userId = b.userId ∧ a.productId = b.productId)) ∧
    ∀ r ∈ cart, 1 ≤ r.quantity

/-- Modelled from the spec: the price normalizer as §4.1 words it —
"strip all non-digit, non-decimal-point characters; parse as a
floating-point (or fixed-point decimal) number", yielding `0` on empty,
null or unparseable input.  Stated only to compare the spec's described
normalizer with the implemented one. -/
def specNormalizePrice : Option String → ℚ
  | none => 0
  | some s =>
    let kept : String := ⟨s.data.filter (fun c => c.isDigit || c == '.')⟩
    (parseDecimal kept).getD 0

/-! ### Concrete sample data for the witnesses and counterexamples -/

/-- Sample product (hybrid-path sort counterexample, higher price). -/
def c1X : Product := ⟨"p1", "Widget X", "Gadgets", "₹100", "₹200", none⟩

/-- Sample product (hybrid-path sort counterexample, lower price). -/
def c1Y : Product := ⟨"p2", "Widget Y", "Gadgets", "₹50", "₹80", none⟩

/-- Sample product A of the spec §8 merge example. -/
def c1A : Product := ⟨"A", "Alpha", "Gadgets", "₹10", "₹20", none⟩

/-- Sample product B of the spec §8 merge example. -/
def c1B : Product := ⟨"B", "Beta", "Gadgets", "₹30", "₹40", none⟩

/-- Sample product C of the spec §8 merge example. -/
def c1C : Product := ⟨"C", "Gamma", "Gadgets", "₹20", "₹25", none⟩

/-- Sample product D of the spec §8 merge example. -/
def c1D : Product := ⟨"D", "Delta", "Gadgets", "₹5", "₹9", none⟩

/-- Sample product whose name contains "Headphones". -/
def c2H : Product := ⟨"h1", "Sony Headphones", "Electronics", "₹999", "₹1999", some 4⟩

/-- Sample product with a hierarchical category path. -/
def c3E : Product := ⟨"e1", "Boat Earbuds", "Electronics|Audio|Headphones", "₹500", "₹900", none⟩

/-- Sample catalog row 1 for the pagination example. -/
def c4P1 : Product := ⟨"t1", "Tee One", "Clothing", "₹100", "₹150", none⟩

/-- Sample catalog row 2 for the pagination example. -/
def c4P2 : Product := ⟨"t2", "Tee Two", "Clothing", "₹200", "₹250", none⟩

/-- Sample catalog row 3 for the pagination example. -/
def c4P3 : Product := ⟨"t3", "Tee Three", "Clothing", "₹300", "₹350", none⟩

/-- Sample product with price 300 (sort-reversal witness). -/
def c7P1 : Product := ⟨"w1", "Ware One", "Stuff", "₹300", "₹400", none⟩

/-- Sample product with price 100 (sort-reversal witness). -/
def c7P2 : Product := ⟨"w2", "Ware Two", "Stuff", "₹100", "₹200", none⟩

/-- Sample product with price 200 (sort-reversal witness). -/
def c7P3 : Product := ⟨"w3", "Ware Three", "Stuff", "₹200", "₹250", none⟩

/-- Sample product carrying a rating. -/
def c8Rated : Product := ⟨"rA", "Rated Item", "Stuff", "₹10", "₹20", some 4⟩

/-- Sample product with a missing rating. -/
def c8Unrated : Product := ⟨"rB", "Unrated Item", "Stuff", "₹10", "₹20", none⟩

/-! ### Generic facts about the canonical stable sort -/

section SortFacts

variable {α : Type*} {K : Type*} [LinearOrder K]

theorem stableSortByKey_perm (κ : α → K) (l : List α) :
    (stableSortByKey κ l).Perm l :=
  List.perm_insertionSort _ l

theorem stableSortByKey_pairwise (κ : α → K) (l : List α) :
    (stableSortByKey κ l).Pairwise (fun a b => κ a ≤ κ b) := by
  haveI : IsTotal α (fun a b => κ a ≤ κ b) := ⟨fun a b => le_total (κ a) (κ b)⟩
  haveI : IsTrans α (fun a b => κ a ≤ κ b) := ⟨fun _ _ _ hab hbc => le_trans hab hbc⟩
  exact List.sorted_insertionSort _ l

theorem filter_orderedInsert_key (κ : α → K) (c : K) (x : α) (l : List α) :
    (List.orderedInsert (fun a b => κ a ≤ κ b) x l).filter (fun y => decide (κ y = c)) =
      if κ x = c then x :: l.filter (fun y => decide (κ y = c))
      else l.filter (fun y => decide (κ y = c)) := by
  induction l with
  | nil =>
    by_cases hxc : κ x = c <;> simp [List.orderedInsert, hxc]
  | cons b bs ih =>
    by_cases hxb : κ x ≤ κ b
    · rw [show List.orderedInsert (fun a b => κ a ≤ κ b) x (b :: bs) = x :: b :: bs from by
        simp [List.orderedInsert, hxb]]
      by_cases hxc : κ x = c <;> by_cases hbc : κ b = c <;>
        simp [List.filter_cons, hxc, hbc]
    · have hbx : κ b < κ x := lt_of_not_le hxb
      rw [show List.orderedInsert (fun a b => κ a ≤ κ b) x (b :: bs)
            = b :: List.orderedInsert (fun a b => κ a ≤ κ b) x bs from by
        simp [List.orderedInsert, hxb]]
      by_cases hxc : κ x = c
      · have hbc : ¬ κ b = c := by
          intro hb
          rw [hxc] at hbx
          rw [hb] at hbx
          exact absurd hbx (lt_irrefl _)
        simp [List.filter_cons, hxc, hbc, ih]
      · by_cases hbc : κ b = c <;> simp [List.filter_cons, hxc, hbc, ih]

theorem stableSortByKey_filter_key (κ : α → K) (c : K) (l : List α) :
    (stableSortByKey κ l).filter (fun y => decide (κ y = c)) =
      l.filter (fun y => decide (κ y = c)) := by
  induction l with
  | nil => rfl
  | cons b bs ih =>
    show (List.orderedInsert _ b (List.insertionSort _ bs)).filter _ = _
    rw [filter_orderedInsert_key]
    by_cases hbc : κ b = c <;>
      simp [hbc, List.filter_cons, ← ih, stableSortByKey]

theorem stableSortByKey_const_nat (l : List α) :
    stableSortByKey (fun _ => (0 : ℕ)) l = l := by
  have h := stableSortByKey_filter_key (fun _ : α => (0 : ℕ)) 0 l
  simpa using h

theorem stableSortByKey_reverse (κ : α → K) (l : List α)
    (h : (l.map κ).Nodup) :
    stableSortByKey (fun a => OrderDual.toDual (κ a)) l =
      (stableSortByKey κ l).reverse := by
  classical
  have pA : (stableSortByKey κ l).Perm l := stableSortByKey_perm κ l
  have pB : (stableSortByKey (fun a => OrderDual.toDual (κ a)) l).Perm l :=
    stableSortByKey_perm _ l
  have hl : l.Pairwise (fun a b => κ a ≠ κ b) := by
    simpa [List.Nodup, List.pairwise_map] using h
  have hsymm : ∀ {x y : α}, κ x ≠ κ y → κ y ≠ κ x := fun hxy => Ne.symm hxy
  have neB : (stableSortByKey (fun a => OrderDual.toDual (κ a)) l).Pairwise
      (fun a b => κ a ≠ κ b) :=
    (pB.pairwise_iff hsymm).mpr hl
  have neArev : (stableSortByKey κ l).reverse.Pairwise (fun a b => κ a ≠ κ b) :=
    (((stableSortByKey κ l).reverse_perm.trans pA).pairwise_iff hsymm).mpr hl
  have leB : (stableSortByKey (fun a => OrderDual.toDual (κ a)) l).Pairwise
      (fun a b => κ b ≤ κ a) :=
    (stableSortByKey_pairwise (fun a => OrderDual.toDual (κ a)) l).imp
      (fun hab => OrderDual.toDual_le_toDual.mp hab)
  have leArev : (stableSortByKey κ l).reverse.Pairwise (fun a b => κ b ≤ κ a) :=
    (List.pairwise_reverse).mpr (stableSortByKey_pairwise κ l)
  have sB : (stableSortByKey (fun a => OrderDual.toDual (κ a)) l).Pairwise
      (fun a b => κ b < κ a) :=
    (leB.and neB).imp (fun hab => lt_of_le_of_ne hab.1 (Ne.symm hab.2))
  have sArev : (stableSortByKey κ l).reverse.Pairwise (fun a b => κ b < κ a) :=
    (leArev.and neArev).imp (fun hab => lt_of_le_of_ne hab.1 (Ne.symm hab.2))
  haveI : IsAntisymm α (fun a b => κ b < κ a) :=
    ⟨fun _ _ h1 h2 => absurd h1 (not_lt.mpr h2.le)⟩
  exact List.eq_of_perm_of_sorted
    (pB.trans (pA.symm.trans (stableSortByKey κ l).reverse_perm.symm)) sB sArev

end SortFacts

/-! ### Facts about the sort switches and filters -/

theorem clientSort_perm (s : String) (l : List Product) :
    (clientSort s l).Perm l := by
  unfold clientSort
  split <;> exact stableSortByKey_perm _ _

theorem clientSort_unrecognized (s : String) (l : List Product)
    (h1 : s ≠ "price_asc") (h2 : s ≠ "price_desc") (h3 : s ≠ "rating") :
    clientSort s l = l := by
  unfold clientSort
  split
  · exact absurd rfl h1
  · exact absurd rfl h2
  · exact absurd rfl h3
  · exact stableSortByKey_const_nat l

theorem storeSort_perm (sortBy? : Option String) (l : List Product) :
    (storeSort sortBy? l).Perm l := by
  unfold storeSort
  split <;> exact stableSortByKey_perm _ _

theorem clientFilter_eq_filter (category? : Option String)
    (priceMin? priceMax? : Option ℕ) (rating? : Option ℚ) (l : List Product) :
    clientFilter category? priceMin? priceMax? rating? l =
      l.filter (clientPred category? priceMin? priceMax? rating?) := by
  unfold clientFilter clientPred
  rcases category? with _ | c <;> rcases rating? with _ | r <;>
    rcases priceMin? with _ | mn <;> rcases priceMax? with _ | mx <;>
      simp [List.filter_filter, Bool.and_assoc]

theorem charsBeginWith_iff (n h : List Char) :
    charsBeginWith n h = true ↔ ∃ t, h = n ++ t := by
  induction n generalizing h with
  | nil => simp [charsBeginWith]
  | cons a as ih =>
    cases h with
    | nil => simp [charsBeginWith]
    | cons b bs =>
      simp only [charsBeginWith, Bool.and_eq_true, beq_iff_eq, ih,
        List.cons_append, List.cons.injEq]
      constructor
      · rintro ⟨hab, t, ht⟩
        exact ⟨t, hab.symm, ht⟩
      · rintro ⟨t, hab, ht⟩
        exact ⟨hab.symm, t, ht⟩

theorem hasSubstr_iff (n h : List Char) :
    hasSubstr n h = true ↔ ∃ pre post, h = pre ++ n ++ post := by
  induction h with
  | nil =>
    cases n with
    | nil => simp [hasSubstr]
    | cons c cs => simp [hasSubstr]
  | cons b bs ih =>
    rw [hasSubstr]
    simp only [Bool.or_eq_true, charsBeginWith_iff, ih]
    constructor
    · rintro (⟨t, ht⟩ | ⟨pre, post, hp⟩)
      · exact ⟨[], t, by simp [ht]⟩
      · exact ⟨b :: pre, post, by simp [hp]⟩
    · rintro ⟨pre, post, hp⟩
      cases pre with
      | nil => exact Or.inl ⟨post, by simpa using hp⟩
      | cons x xs =>
        right
        rw [List.cons_append, List.cons_append, List.cons.injEq] at hp
        exact ⟨xs, post, hp.2⟩

theorem stripNonDigits_idem (s : String) :
    stripNonDigits (stripNonDigits s) = stripNonDigits s := by
  unfold stripNonDigits
  apply congrArg String.mk
  rw [List.filter_filter]
  apply List.filter_congr
  intro x _
  simp [Bool.and_self]

/-! ### C5 — pagination metadata -/

/-- C5: with a positive page size, `totalPages` is `0` when `total = 0`
and the exact ceiling of `total / limit` otherwise; consequently
`totalPages = 0` iff `total = 0`. -/
theorem totalPages_eq_ceil (total limit : ℕ) (hlim : 0 < limit) :
    ((totalPages total limit : ℤ) =
      if total = 0 then 0 else ⌈(total : ℚ) / (limit : ℚ)⌉) ∧
    (totalPages total limit = 0 ↔ total = 0) := by
  have hlq : (0 : ℚ) < (limit : ℚ) := by exact_mod_cast hlim
  constructor
  · by_cases h0 : total = 0
    · subst h0
      simp [totalPages, Nat.div_eq_of_lt (Nat.sub_lt hlim Nat.one_pos)]
    · rw [if_neg h0]
      have htot : 0 < total := Nat.pos_of_ne_zero h0
      simp only [totalPages]
      have hdm := Nat.div_add_mod (total + limit - 1) limit
      have hmlt : (total + limit - 1) % limit < limit := Nat.mod_lt _ hlim
      set d := (total + limit - 1) / limit with hd
      set m := (total + limit - 1) % limit with hm
      have h1 : total ≤ limit * d := by omega
      have h2 : limit * d < total + limit := by omega
      symm
      rw [Int.ceil_eq_iff]
      constructor
      · rw [lt_div_iff₀ hlq]
        have hcast : ((limit : ℚ)) * d < total + limit := by exact_mod_cast h2
        push_cast
        nlinarith
      · rw [div_le_iff₀ hlq]
        have hcast : (total : ℚ) ≤ limit * d := by exact_mod_cast h1
        push_cast
        nlinarith
  · rw [totalPages, Nat.div_eq_zero_iff hlim]
    omega

/-- C5 witness: the theorem instantiated at `total = 3`, `limit = 2`. -/
theorem totalPages_eq_ceil_witness :
    0 < 2 ∧
    (((totalPages 3 2 : ℤ) = if (3 : ℕ) = 0 then 0 else ⌈(3 : ℚ) / (2 : ℚ)⌉) ∧
      (totalPages 3 2 = 0 ↔ (3 : ℕ) = 0)) :=
  ⟨by decide, totalPages_eq_ceil 3 2 (by decide)⟩

/-! ### C6 — the price normalizer -/

/-- C6 counterexample: the implemented normalizer strips the decimal
point along with every other non-digit character; on `"₹1,234.50"` it
yields `123450`, not the `1234.50` that stripping only non-digit,
non-decimal-point characters (the spec's described operation,
`specNormalizePrice`) would produce. -/
theorem normalizePrice_cex :
    normalizePrice (some "₹1,234.50") = 123450 ∧
    specNormalizePrice (some "₹1,234.50") = 2469 / 2 ∧
    ((123450 : ℚ) ≠ 2469 / 2) := by
  refine ⟨by decide, ?_, by norm_num⟩
  have h1 : specNormalizePrice (some "₹1,234.50") =
      ((digitsToNat ['1', '2', '3', '4'] : ℚ) +
        (digitsToNat ['5', '0'] : ℚ) / (10 : ℚ) ^ (['5', '0'] : List Char).length) := by
    rfl
  rw [h1]
  have h2 : digitsToNat ['1', '2', '3', '4'] = 1234 := by decide
  have h3 : digitsToNat ['5', '0'] = 50 := by decide
  rw [h2, h3]
  norm_num

/-- C6 (amended): the normalizer strips every non-digit character — the
decimal point included — and parses the remainder as an integer; it
yields `0` on null, on the empty string and on any string with no digit
at all; `"₹1,234"` normalizes to `1234` and `"1.5"` to `15`. -/
theorem normalizePrice_amended :
    normalizePrice none = 0 ∧
    (∀ s : String, (∀ c ∈ s.data, ¬ c.isDigit) → normalizePrice (some s) = 0) ∧
    normalizePrice (some "₹1,234") = 1234 ∧
    normalizePrice (some "") = 0 ∧
    normalizePrice (some "1.5") = 15 ∧
    (∀ s : String, normalizePrice (some s) = normalizePrice (some (stripNonDigits s))) := by
  refine ⟨rfl, ?_, by decide, by decide, by decide, ?_⟩
  · intro s hs
    have hstrip : stripNonDigits s = "" := by
      unfold stripNonDigits
      apply congrArg String.mk
      rw [List.filter_eq_nil_iff]
      simpa using hs
    simp only [normalizePrice, hstrip]
    decide
  · intro s
    simp [normalizePrice, stripNonDigits_idem]

/-- C6 witness: the all-non-digit clause of the amended theorem applied
at `"abc"`. -/
theorem normalizePrice_amended_witness :
    (∀ c ∈ ("abc" : String).data, ¬ c.isDigit) ∧ normalizePrice (some "abc") = 0 :=
  ⟨by decide, normalizePrice_amended.2.1 "abc" (by decide)⟩

/-! ### C10 — wishlist idempotence -/

/-- C10: `addToWishlist` is idempotent — adding a product already in the
wishlist returns the existing row and leaves the table unchanged, so two
identical calls are equivalent to one. -/
theorem addToWishlist_idem :
    (∀ (wl : List WishlistItem) (u p : String),
        addToWishlist (addToWishlist wl u p).1 u p =
          ((addToWishlist wl u p).1, (addToWishlist wl u p).2)) ∧
    (∀ (wl : List WishlistItem) (u p : String),
        isInWishlist wl u p = true →
          (addToWishlist wl u p).1 = wl ∧
            findWishlistItem? wl u p = some (addToWishlist wl u p).2) := by
  constructor
  · intro wl u p
    cases hf : findWishlistItem? wl u p with
    | some e =>
      simp [addToWishlist, hf]
    | none =>
      have hfind : findWishlistItem? (wl ++ [⟨u, p⟩]) u p = some ⟨u, p⟩ := by
        unfold findWishlistItem? at *
        rw [List.find?_append, hf]
        simp
      simp [addToWishlist, hf, hfind]
  · intro wl u p hin
    cases hf : findWishlistItem? wl u p with
    | none =>
      rw [isInWishlist, hf] at hin
      simp at hin
    | some e =>
      simp [addToWishlist, hf]

/-- C10 witness: adding `("u","p")` to a wishlist that already holds it
returns the stored row and changes nothing. -/
theorem addToWishlist_idem_witness :
    isInWishlist [(⟨"u", "p"⟩ : WishlistItem)] "u" "p" = true ∧
    ((addToWishlist [(⟨"u", "p"⟩ : WishlistItem)] "u" "p").1 = [⟨"u", "p"⟩] ∧
      findWishlistItem? [(⟨"u", "p"⟩ : WishlistItem)] "u" "p" =
        some (addToWishlist [(⟨"u", "p"⟩ : WishlistItem)] "u" "p").2) :=
  ⟨by decide, addToWishlist_idem.2 [⟨"u", "p"⟩] "u" "p" (by decide)⟩

/-! ### C2 — semantic-search fallback -/

/-- C2 counterexample: when the adapter succeeds with zero candidate
ids, the hybrid query returns the empty response rather than falling
back, so it differs from the direct substring query, which here finds a
product named "Sony Headphones" for the search text "headphones". -/
theorem semanticFallback_cex :
    useProductsQuery (.success []) [c2H] 1 20 (some "headphones") none none none none none =
      ⟨[], ⟨1, 20, 0, 0⟩⟩ ∧
    (apiProductsHandler [c2H] 1 20 (some "headphones") none none none none none).products =
      [c2H] ∧
    useProductsQuery (.success []) [c2H] 1 20 (some "headphones") none none none none none ≠
      apiProductsHandler [c2H] 1 20 (some "headphones") none none none none none := by
  exact ⟨by decide, by decide, by decide⟩

/-- C2 (amended): with non-blank search text, an adapter failure makes
the query return exactly the direct non-semantic result — the raw
search text applied as a case-insensitive substring predicate on product
names — with no error surfaced; an adapter success carrying zero
candidate ids instead returns the empty response with `total = 0` and
`totalPages = 0`. -/
theorem semanticFallback_amended (catalog : List Product) (page limit : ℕ)
    (s : String) (category? sortBy? : Option String)
    (priceMin? priceMax? : Option ℕ) (rating? : Option ℚ)
    (hs : jsTrim s ≠ "") :
    useProductsQuery .failure catalog page limit (some s) category? sortBy?
        priceMin? priceMax? rating? =
      apiProductsHandler catalog page limit (some s) category? sortBy?
        priceMin? priceMax? rating? ∧
    useProductsQuery (.success []) catalog page limit (some s) category? sortBy?
        priceMin? priceMax? rating? =
      ⟨[], ⟨page, limit, 0, 0⟩⟩ := by
  constructor <;> simp [useProductsQuery, hs]

/-- C2 witness: the amended theorem applied at the "headphones"
search. -/
theorem semanticFallback_witness :
    jsTrim "headphones" ≠ "" ∧
    useProductsQuery .failure [c2H] 1 20 (some "headphones") none none none none none =
      apiProductsHandler [c2H] 1 20 (some "headphones") none none none none none :=
  ⟨by decide,
   (semanticFallback_amended [c2H] 1 20 "headphones" none none none none none (by decide)).1⟩

/-! ### C3 — category predicate -/

/-- C3 counterexample: the by-ids (hybrid) path compares categories with
strict equality, so the filter "Electronics" drops a product whose
category path is "Electronics|Audio|Headphones", although the substring
predicate of the direct path accepts it. -/
theorem categoryPredicate_cex :
    byIdsHandler [c3E] ["e1"] (some "Electronics") none none none none = [] ∧
    c3E.category = "Electronics|Audio|Headphones" ∧
    ilikeContains c3E.category "Electronics" = true := by
  exact ⟨by decide, rfl, by decide⟩

/-- C3 (amended): in the direct catalog path the category predicate is
case-insensitive substring containment — a product matches exactly when
the filter value appears anywhere in its category string — while the
by-ids/hybrid path keeps a product exactly when its category equals the
filter value verbatim. -/
theorem categoryPredicate_amended :
    (∀ (catalog : List Product) (c : String) (p : Product),
        p ∈ storeMatches none (some c) none none none catalog ↔
          p ∈ catalog ∧ ilikeContains p.category c = true) ∧
    (∀ hay needle : String,
        ilikeContains hay needle = true ↔
          ∃ pre post, lowerChars hay.data = pre ++ lowerChars needle.data ++ post) ∧
    (∀ (catalog : List Product) (ids : List String) (c : String) (p : Product),
        p ∈ byIdsHandler catalog ids (some c) none none none none ↔
          p ∈ catalog ∧ p.id ∈ ids ∧ p.category = c) := by
  refine ⟨?_, ?_, ?_⟩
  · intro catalog c p
    simp [storeMatches, List.mem_filter]
  · intro hay needle
    exact hasSubstr_iff _ _
  · intro catalog ids c p
    by_cases hids : ids.isEmpty = true
    · have h0 : ids = [] := List.isEmpty_iff.mp hids
      subst h0
      simp [byIdsHandler]
    · rw [show byIdsHandler catalog ids (some c) none none none none =
          stableSortByKey (idOrderKey ids)
            (byIdsFilter (some c) none none none (getProductsByIds catalog ids)) from by
        simp [byIdsHandler, hids]]
      rw [List.Perm.mem_iff (stableSortByKey_perm _ _)]
      simp [byIdsFilter, getProductsByIds, List.mem_filter, and_assoc, and_comm]

/-! ### C4 — out-of-range pages -/

/-- C4: with a positive limit and a non-empty match set, requesting a
page past the last one yields an empty product array while `total` and
`totalPages` still report the true match count, in the direct path and
in the hybrid path alike; no error is raised. -/
theorem outOfRangePage (catalog : List Product)
    (search? category? sortBy? : Option String)
    (priceMin? priceMax? : Option ℕ) (rating? : Option ℚ)
    (page limit : ℕ) (hlim : 0 < limit)
    (htot : 0 < (storeMatches search? category? priceMin? priceMax? rating? catalog).length) :
    ((storeMatches search? category? priceMin? priceMax? rating? catalog).length ≤ (page - 1) * limit →
      (apiProductsHandler catalog page limit search? category? sortBy? priceMin? priceMax? rating?).products = [] ∧
      (apiProductsHandler catalog page limit search? category? sortBy? priceMin? priceMax? rating?).pagination.total =
        (storeMatches search? category? priceMin? priceMax? rating? catalog).length ∧
      (apiProductsHandler catalog page limit search? category? sortBy? priceMin? priceMax? rating?).pagination.totalPages =
        totalPages (storeMatches search? category? priceMin? priceMax? rating? catalog).length limit) ∧
    (∀ (ids : List String) (s : String), jsTrim s ≠ "" → ids ≠ [] →
      (hybridFiltered catalog ids category? priceMin? priceMax? rating? sortBy?).length ≤ (page - 1) * limit →
      (useProductsQuery (.success ids) catalog page limit (some s) category? sortBy? priceMin? priceMax? rating?).products = [] ∧
      (useProductsQuery (.success ids) catalog page limit (some s) category? sortBy? priceMin? priceMax? rating?).pagination.total =
        (hybridFiltered catalog ids category? priceMin? priceMax? rating? sortBy?).length ∧
      (useProductsQuery (.success ids) catalog page limit (some s) category? sortBy? priceMin? priceMax? rating?).pagination.totalPages =
        totalPages (hybridFiltered catalog ids category? priceMin? priceMax? rating? sortBy?).length limit) := by
  constructor
  · intro hpage
    have hlen : (storeSort sortBy? (storeMatches search? category? priceMin? priceMax? rating? catalog)).length =
        (storeMatches search? category? priceMin? priceMax? rating? catalog).length :=
      (storeSort_perm _ _).length_eq
    refine ⟨?_, rfl, rfl⟩
    simp only [apiProductsHandler, getProducts]
    rw [List.drop_eq_nil_of_le (by rw [hlen]; exact hpage)]
    exact List.take_nil
  · intro ids s hs hne hpage
    have hie : ids.isEmpty = false := by
      cases ids with
      | nil => exact absurd rfl hne
      | cons a l => rfl
    have hlen : (hybridRanked catalog ids category? priceMin? priceMax? rating? sortBy?).length =
        (hybridFiltered catalog ids category? priceMin? priceMax? rating? sortBy?).length := by
      cases sortBy? with
      | none => rfl
      | some sb => exact (clientSort_perm _ _).length_eq
    have hq : useProductsQuery (.success ids) catalog page limit (some s) category? sortBy? priceMin? priceMax? rating? =
        ⟨((hybridRanked catalog ids category? priceMin? priceMax? rating? sortBy?).drop ((page - 1) * limit)).take limit,
         ⟨page, limit, (hybridFiltered catalog ids category? priceMin? priceMax? rating? sortBy?).length,
          totalPages (hybridFiltered catalog ids category? priceMin? priceMax? rating? sortBy?).length limit⟩⟩ := by
      simp [useProductsQuery, hs, hie]
    rw [hq]
    refine ⟨?_, rfl, rfl⟩
    rw [List.drop_eq_nil_of_le (by rw [hlen]; exact hpage)]
    exact List.take_nil

/-- C4 witness: page 999 of a 3-match catalog with limit 3 yields no
products, `total = 3`, `totalPages = 1`. -/
theorem outOfRangePage_witness :
    (apiProductsHandler [c4P1, c4P2, c4P3] 999 3 none none none none none none).products = [] ∧
    (apiProductsHandler [c4P1, c4P2, c4P3] 999 3 none none none none none none).pagination.total = 3 ∧
    (apiProductsHandler [c4P1, c4P2, c4P3] 999 3 none none none none none none).pagination.totalPages = 1 := by
  have h := (outOfRangePage [c4P1, c4P2, c4P3] none none none none none none 999 3
    (by decide) (by decide)).1 (by decide)
  refine ⟨h.1, ?_, ?_⟩
  · rw [h.2.1]
    decide
  · rw [h.2.2]
    decide

/-! ### C7 — price sort reversal and stability -/

/-- C7: on a filtered list whose normalized prices are pairwise
distinct, the price-descending sort is exactly the reverse of the
price-ascending sort; and under both directions the items carrying any
given normalized price keep their pre-sort relative order (stability).
The same comparators run in the hybrid client and in the by-ids
route. -/
theorem priceSort_reverse_and_stable (l : List Product) :
    ((l.map priceKey).Nodup →
      clientSort "price_desc" l = (clientSort "price_asc" l).reverse) ∧
    (∀ c : ℕ,
      (clientSort "price_asc" l).filter (fun p => decide (priceKey p = c)) =
        l.filter (fun p => decide (priceKey p = c))) ∧
    (∀ c : ℕ,
      (clientSort "price_desc" l).filter (fun p => decide (priceKey p = c)) =
        l.filter (fun p => decide (priceKey p = c))) := by
  have hasc : clientSort "price_asc" l = stableSortByKey priceKey l := rfl
  have hdesc : clientSort "price_desc" l =
      stableSortByKey (fun p => OrderDual.toDual (priceKey p)) l := rfl
  refine ⟨?_, ?_, ?_⟩
  · intro h
    rw [hasc, hdesc]
    exact stableSortByKey_reverse priceKey l h
  · intro c
    rw [hasc]
    exact stableSortByKey_filter_key priceKey c l
  · intro c
    rw [hdesc]
    have hcong : ∀ m : List Product,
        m.filter (fun y => decide (OrderDual.toDual (priceKey y) = OrderDual.toDual c)) =
          m.filter (fun p => decide (priceKey p = c)) := by
      intro m
      apply List.filter_congr
      intro x _
      rw [decide_eq_decide]
      exact OrderDual.toDual_inj
    rw [← hcong, stableSortByKey_filter_key (fun p : Product => OrderDual.toDual (priceKey p))
      (OrderDual.toDual c) l, hcong]

/-- C7 witness: the reversal clause applied to three products with
pairwise distinct prices. -/
theorem priceSort_reverse_witness :
    ([c7P1, c7P2, c7P3].map priceKey).Nodup ∧
    clientSort "price_desc" [c7P1, c7P2, c7P3] =
      (clientSort "price_asc" [c7P1, c7P2, c7P3]).reverse :=
  ⟨by decide, (priceSort_reverse_and_stable [c7P1, c7P2, c7P3]).1 (by decide)⟩

/-! ### C8 — missing ratings under rating sorts -/

/-- C8 counterexample: in the data-store path, `rating DESC` puts the
`NULL`-rated product first (PostgreSQL sorts `NULL` as the highest
value), so a product with a missing rating precedes a rated one under
the rating-descending sort, contradicting the claim. -/
theorem ratingSort_missing_cex :
    (apiProductsHandler [c8Rated, c8Unrated] 1 20 none none (some "rating") none none none).products =
      [c8Unrated, c8Rated] ∧
    c8Unrated.rating = none ∧
    c8Rated.rating = some 4 ∧
    ¬ ((apiProductsHandler [c8Rated, c8Unrated] 1 20 none none (some "rating") none none none).products.Pairwise
        (fun a b => a.rating = none → b.rating = none)) := by
  exact ⟨by decide, rfl, rfl, by decide⟩

/-- C8 (amended): the in-memory rating sort reads a missing rating as
`0`, the lowest value of the rating scale, and orders by the normalized
rating descending; the data-store path instead sorts missing ratings as
the highest value — under `rating`/`rating-high` (descending) every
missing-rating product precedes the rated ones, and under `rating-low`
(ascending) it follows them. -/
theorem ratingSort_missing_amended (l : List Product) :
    ((clientSort "rating" l).Pairwise (fun a b => ratingKey b ≤ ratingKey a) ∧
      (∀ p : Product, p.rating = none → ratingKey p = 0)) ∧
    (storeSort (some "rating") l).Pairwise
      (fun a b => b.rating = none → a.rating = none) ∧
    (storeSort (some "rating-low") l).Pairwise
      (fun a b => a.rating = none → b.rating = none) := by
  have hnone : ∀ p : Product, p.rating = none → pgRatingKey p = ⊤ := by
    intro p hp
    simp [pgRatingKey, hp]
  have htop : ∀ p : Product, pgRatingKey p = ⊤ → p.rating = none := by
    intro p hp
    cases ha : p.rating with
    | none => rfl
    | some r =>
      rw [show pgRatingKey p = (r : WithTop ℚ) from by simp [pgRatingKey, ha]] at hp
      exact absurd hp WithTop.coe_ne_top
  refine ⟨⟨?_, ?_⟩, ?_, ?_⟩
  · have h := stableSortByKey_pairwise (fun p : Product => OrderDual.toDual (ratingKey p)) l
    rw [show clientSort "rating" l =
        stableSortByKey (fun p => OrderDual.toDual (ratingKey p)) l from rfl]
    exact h.imp (fun hab => OrderDual.toDual_le_toDual.mp hab)
  · intro p hp
    simp [ratingKey, hp]
  · have h := stableSortByKey_pairwise (fun p : Product => OrderDual.toDual (pgRatingKey p)) l
    rw [show storeSort (some "rating") l =
        stableSortByKey (fun p => OrderDual.toDual (pgRatingKey p)) l from rfl]
    refine h.imp ?_
    intro a b hab hbnone
    have hba : pgRatingKey b ≤ pgRatingKey a := OrderDual.toDual_le_toDual.mp hab
    rw [hnone b hbnone] at hba
    exact htop a (top_le_iff.mp hba)
  · have h := stableSortByKey_pairwise (fun p : Product => pgRatingKey p) l
    rw [show storeSort (some "rating-low") l =
        stableSortByKey pgRatingKey l from rfl]
    refine h.imp ?_
    intro a b hab hanone
    rw [hnone a hanone] at hab
    exact htop b (top_le_iff.mp hab)

/-- C8 witness: the missing-rating clause of the amended theorem applied
to the unrated sample product. -/
theorem ratingSort_missing_witness :
    c8Unrated.rating = none ∧ ratingKey c8Unrated = 0 :=
  ⟨rfl, (ratingSort_missing_amended [c8Unrated]).1.2 c8Unrated rfl⟩

/-! ### C9 — cart row uniqueness and quantities -/

/-- C9 counterexample: `addToCart` inserts the requested quantity
verbatim (the insert schema does not reject non-positive quantities), so
adding with quantity `0` to an empty cart stores a row with quantity
`0`, refuting the unconditional `quantity >= 1` invariant. -/
theorem cartQuantity_cex :
    (addToCart [] "u1" "p1" 0).1 = [⟨"u1", "p1", 0⟩] ∧
    ¬ (∀ r ∈ (addToCart [] "u1" "p1" 0).1, 1 ≤ r.quantity) := by
  exact ⟨by decide, by decide⟩

/-- C9 (amended): per-user-per-product row uniqueness is preserved by
the cart operations, and every stored quantity stays at least `1`
provided each `addToCart` request carries a quantity of at least `1`:
adding an already-present product updates that row's quantity to the
stored amount plus the requested amount instead of inserting a second
row (the multiset of `(userId, productId)` keys is unchanged), and
updating a cart item to a quantity of at most `0` deletes the row and
returns `undefined`. -/
theorem cartInv_amended :
    (∀ (cart : List CartItem) (u p : String) (q : ℤ),
        CartInv cart → 1 ≤ q → CartInv (addToCart cart u p q).1) ∧
    (∀ (cart : List CartItem) (u p : String) (q : ℤ),
        CartInv cart → CartInv (updateCartItem cart u p q).1) ∧
    (∀ (cart : List CartItem) (u p : String) (q : ℤ),
        findCartItem? cart u p ≠ none →
          (addToCart cart u p q).1.length = cart.length ∧
          (addToCart cart u p q).1.map (fun r => (r.userId, r.productId)) =
            cart.map (fun r => (r.userId, r.productId)) ∧
          (∀ e : CartItem, findCartItem? cart u p = some e →
            (addToCart cart u p q).2.quantity = e.quantity + q)) ∧
    (∀ (cart : List CartItem) (u p : String) (q : ℤ),
        q ≤ 0 →
          (updateCartItem cart u p q).2 = none ∧
          ∀ r ∈ (updateCartItem cart u p q).1, ¬(r.userId = u ∧ r.productId = p)) := by
  have hmap_uniq : ∀ (cart : List CartItem) (u p : String) (n : ℤ),
      cart.Pairwise (fun a b => ¬(a.userId = b.userId ∧ a.productId = b.productId)) →
      (cart.map (fun r => if cartKeyMatches u p r then { r with quantity := n } else r)).Pairwise
        (fun a b => ¬(a.userId = b.userId ∧ a.productId = b.productId)) := by
    intro cart u p n huniq
    rw [List.pairwise_map]
    refine huniq.imp ?_
    intro a b hab hcontra
    apply hab
    constructor
    · have ha : (if cartKeyMatches u p a then ({ a with quantity := n } : CartItem) else a).userId = a.userId := by
        split <;> rfl
      have hb : (if cartKeyMatches u p b then ({ b with quantity := n } : CartItem) else b).userId = b.userId := by
        split <;> rfl
      rw [← ha, ← hb]
      exact hcontra.1
    · have ha : (if cartKeyMatches u p a then ({ a with quantity := n } : CartItem) else a).productId = a.productId := by
        split <;> rfl
      have hb : (if cartKeyMatches u p b then ({ b with quantity := n } : CartItem) else b).productId = b.productId := by
        split <;> rfl
      rw [← ha, ← hb]
      exact hcontra.2
  have hmap_qty : ∀ (cart : List CartItem) (u p : String) (n : ℤ),
      (∀ r ∈ cart, 1 ≤ r.quantity) → 1 ≤ n →
      ∀ r ∈ cart.map (fun r => if cartKeyMatches u p r then { r with quantity := n } else r),
        1 ≤ r.quantity := by
    intro cart u p n hqty hn r hr
    rw [List.mem_map] at hr
    rcases hr with ⟨a, ha, rfl⟩
    by_cases hm : cartKeyMatches u p a = true
    · simp only [hm, if_true]
      exact hn
    · rw [Bool.not_eq_true] at hm
      simp only [hm, Bool.false_eq_true, if_false]
      exact hqty a ha
  refine ⟨?_, ?_, ?_, ?_⟩
  · intro cart u p q hinv hq
    rcases hinv with ⟨huniq, hqty⟩
    cases hf : findCartItem? cart u p with
    | some e =>
      have he : e ∈ cart := List.mem_of_find?_eq_some hf
      have h1 : 1 ≤ e.quantity := hqty e he
      constructor
      · simp only [addToCart, hf]
        exact hmap_uniq cart u p (e.quantity + q) huniq
      · simp only [addToCart, hf]
        exact hmap_qty cart u p (e.quantity + q) hqty (by omega)
    | none =>
      constructor
      · simp only [addToCart, hf]
        rw [List.pairwise_append]
        refine ⟨huniq, List.pairwise_singleton _ _, ?_⟩
        intro a ha b hb
        rw [List.mem_singleton] at hb
        subst hb
        rintro ⟨h1, h2⟩
        have hnone := List.find?_eq_none.mp hf a ha
        apply hnone
        simp [cartKeyMatches, h1, h2]
      · simp only [addToCart, hf]
        intro r hr
        rw [List.mem_append] at hr
        rcases hr with hr | hr
        · exact hqty r hr
        · rw [List.mem_singleton] at hr
          subst hr
          exact hq
  · intro cart u p q hinv
    rcases hinv with ⟨huniq, hqty⟩
    by_cases hq : q ≤ 0
    · rw [show (updateCartItem cart u p q).1 = removeFromCart cart u p from by
        simp [updateCartItem, hq]]
      constructor
      · exact List.Pairwise.sublist (List.filter_sublist _) huniq
      · intro r hr
        exact hqty r (List.mem_of_mem_filter hr)
    · have hq1 : 1 ≤ q := by omega
      rw [show (updateCartItem cart u p q).1 =
          cart.map (fun r => if cartKeyMatches u p r then { r with quantity := q } else r) from by
        simp [updateCartItem, hq]]
      exact ⟨hmap_uniq cart u p q huniq, hmap_qty cart u p q hqty hq1⟩
  · intro cart u p q hne
    cases hf : findCartItem? cart u p with
    | none => exact absurd hf hne
    | some e =>
      refine ⟨?_, ?_, ?_⟩
      · simp [addToCart, hf]
      · simp only [addToCart, hf]
        rw [List.map_map]
        apply List.map_congr_left
        intro a _
        simp only [Function.comp]
        split <;> rfl
      · intro e2 he2
        injection he2 with he2
        subst he2
        simp [addToCart, hf]
  · intro cart u p q hq
    constructor
    · simp [updateCartItem, hq]
    · intro r hr
      rw [show (updateCartItem cart u p q).1 = removeFromCart cart u p from by
        simp [updateCartItem, hq]] at hr
      rw [removeFromCart, List.mem_filter] at hr
      rcases hr with ⟨_, hcond⟩
      rintro ⟨h1, h2⟩
      simp [cartKeyMatches, h1, h2] at hcond

/-- C9 witness: the add clause applied to an empty cart with
quantity 2. -/
theorem cartInv_witness :
    CartInv ([] : List CartItem) ∧ (1 : ℤ) ≤ 2 ∧ CartInv (addToCart [] "u" "p" 2).1 :=
  ⟨⟨List.Pairwise.nil, by simp⟩, by decide,
   cartInv_amended.1 [] "u" "p" 2 ⟨List.Pairwise.nil, by simp⟩ (by decide)⟩

/-! ### C1 — semantic order vs explicit sort in the hybrid path -/

/-- C1 counterexample: "price-low" — the price-ascending key the rest of
the system uses (the UI sends it and the store path sorts ascending by
price for it) — is an explicit sort key other than "relevance", yet the
hybrid path leaves the semantic rank order untouched instead of applying
the price-ascending ordering: with candidates `[p1, p2]` where `p2` is
cheaper, the hybrid result stays `[c1X, c1Y]` while the Sort Strategy
ordering for the same key is `[c1Y, c1X]`. -/
theorem hybridOrder_cex :
    hybridRanked [c1X, c1Y] ["p1", "p2"] none none none none (some "price-low") = [c1X, c1Y] ∧
    priceKey c1Y < priceKey c1X ∧
    storeSort (some "price-low") [c1X, c1Y] = [c1Y, c1X] ∧
    ¬ (hybridRanked [c1X, c1Y] ["p1", "p2"] none none none none (some "price-low")).Pairwise
        (fun a b => priceKey a ≤ priceKey b) := by
  exact ⟨by decide, by decide, by decide, by decide⟩

/-- C1 (amended): with sort key "relevance" or no sort key the hybrid
result is the semantic candidate order restricted to the fetched rows —
for every sort key, the filtered list is exactly the candidate id list
mapped through the fetched-row lookup with non-matching entries dropped,
no reordering among the rest; an explicit sort key is handed to the
shared comparator switch, which re-sorts only for `price_asc`,
`price_desc` and `rating` and leaves the semantic order unchanged for
every other key (including the `price-low`, `price-high`, `rating-high`,
`rating-low` and `newest` keys used elsewhere in the system). -/
theorem hybridOrder_amended (catalog : List Product) (ids : List String)
    (category? : Option String) (priceMin? priceMax? : Option ℕ)
    (rating? : Option ℚ) :
    (hybridRanked catalog ids category? priceMin? priceMax? rating? none =
      hybridFiltered catalog ids category? priceMin? priceMax? rating? none) ∧
    (hybridRanked catalog ids category? priceMin? priceMax? rating? (some "relevance") =
      hybridFiltered catalog ids category? priceMin? priceMax? rating? (some "relevance")) ∧
    (∀ sortBy? : Option String,
      hybridFiltered catalog ids category? priceMin? priceMax? rating? sortBy? =
        ids.filterMap (fun i =>
          Option.filter (clientPred category? priceMin? priceMax? rating?)
            (jsMapGet (byIdsHandler catalog ids category? priceMin? priceMax? rating? sortBy?) i))) ∧
    (∀ s : String,
      hybridRanked catalog ids category? priceMin? priceMax? rating? (some s) =
        clientSort s (hybridFiltered catalog ids category? priceMin? priceMax? rating? (some s))) ∧
    (∀ s : String, s ≠ "price_asc" → s ≠ "price_desc" → s ≠ "rating" →
      hybridRanked catalog ids category? priceMin? priceMax? rating? (some s) =
        hybridFiltered catalog ids category? priceMin? priceMax? rating? (some s)) := by
  refine ⟨rfl, ?_, ?_, ?_, ?_⟩
  · rw [show hybridRanked catalog ids category? priceMin? priceMax? rating? (some "relevance") =
        clientSort "relevance"
          (hybridFiltered catalog ids category? priceMin? priceMax? rating? (some "relevance")) from rfl]
    exact clientSort_unrecognized _ _ (by decide) (by decide) (by decide)
  · intro sb
    rw [hybridFiltered, clientFilter_eq_filter, hybridOrdered, List.filter_filterMap]
  · intro s
    rfl
  · intro s h1 h2 h3
    rw [show hybridRanked catalog ids category? priceMin? priceMax? rating? (some s) =
        clientSort s
          (hybridFiltered catalog ids category? priceMin? priceMax? rating? (some s)) from rfl]
    exact clientSort_unrecognized s _ h1 h2 h3

/-- C1 witness: the spec §8 example — candidates `[B, A, C]` over the
catalog `[A, B, C, D]` with sort key "relevance" merge to exactly
`[B, A, C]` (D dropped, order preserved) — together with the
no-override clause applied at the key "newest". -/
theorem hybridOrder_witness :
    hybridRanked [c1A, c1B, c1C, c1D] ["B", "A", "C"] none none none none (some "relevance") =
      [c1B, c1A, c1C] ∧
    ("newest" ≠ "price_asc" ∧ "newest" ≠ "price_desc" ∧ "newest" ≠ "rating") ∧
    hybridRanked [c1A, c1B, c1C, c1D] ["B", "A", "C"] none none none none (some "newest") =
      hybridFiltered [c1A, c1B, c1C, c1D] ["B", "A", "C"] none none none none (some "newest") :=
  ⟨by decide, ⟨by decide, by decide, by decide⟩,
   (hybridOrder_amended [c1A, c1B, c1C, c1D] ["B", "A", "C"] none none none
      none).2.2.2.2 "newest" (by decide) (by decide) (by decide)⟩

end Shop
